import Mathlib

/-!
Verification of tools/train_genre_classifier.py.

The script is a one-shot training pipeline: load a labeled audio dataset,
extract a fixed-length embedding per track (YAMNet, treated as an opaque
function), resample audio to 16 kHz by linear interpolation, assemble
(embedding, label) pairs while skipping bad tracks, shuffle, split 80/20,
train, export and verify.

Modelling conventions:
- Python floats and numpy float arrays are modelled exactly over the
  rationals; waveforms are lists of rationals.
- Fallible numpy operations are modelled with Option: functions return
  none exactly where the Python code raises, and the enclosing try/except
  of the main loop consumes the none.
- The opaque pretrained embedding function (YAMNet) is a parameter of the
  pipeline: a function from a waveform to a 2-D tensor of per-frame
  embeddings.  A 2-D tensor keeps its static column count even with zero
  rows, mirroring TensorFlow shape semantics.
-/

/-- Genre labels, lines 47-48 of the script (must match order in Kotlin). -/
def GENRES : List String :=
  ["blues", "classical", "country", "disco", "hiphop",
   "jazz", "metal", "pop", "reggae", "rock"]

/-- Display names for output, lines 51-52 of the script. -/
def GENRE_DISPLAY : List String :=
  ["Blues", "Classical", "Country", "Disco", "Hip-Hop",
   "Jazz", "Metal", "Pop", "Reggae", "Rock"]

/-- One record of the Hugging Face dataset as consumed by the main loop:
the waveform samples, the sampling rate, and the value of the genre field.
The genre field is `some g` when the dataset value is a Python int g and
`none` when it is not an int (the isinstance check at line 123 fails). -/
structure Track where
  audio : List ℚ
  rate : ℕ
  genre : Option ℤ
deriving DecidableEq

/-- A 2-D tensor of per-frame embeddings as returned by the opaque YAMNet
call at line 80: a row per time frame, a statically known column count.
The column count is kept separately because a TensorFlow tensor retains
its static second dimension even when it has zero rows. -/
structure Frames where
  cols : ℕ
  rows : List (List ℚ)

/-- np.abs(a).max() over a nonempty array: the largest absolute value.
The empty case is unreachable here (its caller returns none first). -/
def maxAbs : List ℚ → ℚ
  | [] => 0
  | x :: xs => xs.foldl (fun m v => max m |v|) |x|

/-- Lines 73-78 of extract_embeddings: the float32 cast (exact under the
rational model) and the amplitude normalization.  np.abs(a).max() raises
ValueError on a zero-size array, hence none for the empty waveform;
otherwise the samples are divided by 32768 when some absolute value
exceeds 1.0, and passed through unchanged when none does. -/
def scaleInput (audio_samples : List ℚ) : Option (List ℚ) :=
  match audio_samples with
  | [] => none
  | _ =>
    if 1 < maxAbs audio_samples then
      some (audio_samples.map (fun v => v / 32768))
    else
      some audio_samples

/-- tf.reduce_mean(embeddings, axis=0) at line 82 for a tensor of shape
(rows.length, cols): one output entry per column, the arithmetic mean of
that column.  (With zero rows TensorFlow fills the 1024 outputs with NaN;
rational division by zero yields 0 instead — only the shape matters to
the claims.) -/
def reduceMeanAxis0 (f : Frames) : List ℚ :=
  (List.range f.cols).map
    (fun j => (f.rows.map (fun r => r.getD j 0)).sum / (f.rows.length : ℚ))

/-- extract_embeddings, lines 70-83: scale the waveform if needed, feed it
to the opaque YAMNet model, and average the per-frame embeddings across
the time axis.  Returns none exactly where the Python function raises. -/
def extract_embeddings (yamnet_model : List ℚ → Frames)
    (audio_samples : List ℚ) : Option (List ℚ) :=
  (scaleInput audio_samples).map (fun a => reduceMeanAxis0 (yamnet_model a))

/-- np.linspace(0, stop, n) at line 132 with start 0: n evenly spaced
points from 0 to stop inclusive; a single point is the start value. -/
def linspace0 (stop : ℚ) (n : ℕ) : List ℚ :=
  (List.range n).map
    (fun j : ℕ => if n = 1 then 0 else stop * (j : ℚ) / ((n : ℚ) - 1))

/-- np.interp at one query point t against xp = arange(fp.length), for
t in [0, fp.length - 1]: linear interpolation between the two nearest
sample points. -/
def interpAt (fp : List ℚ) (t : ℚ) : ℚ :=
  let i := ⌊t⌋₊
  let x0 := fp.getD i 0
  let x1 := fp.getD (i + 1) x0
  x0 + (t - (i : ℚ)) * (x1 - x0)

/-- Lines 129-133 of main: resampling to 16 kHz.  If the source rate is
already 16000 the waveform is untouched.  Otherwise the new length is
int(len(audio) * 16000/rate) — modelled exactly as the rational floor,
i.e. natural division — and each output sample is linear interpolation at
the linspace index set.  none models the raises inside the try block:
16000/rate raises ZeroDivisionError when rate = 0, and np.interp raises
ValueError when the sample-point array arange(len(audio)) is empty. -/
def resampleAudio (audio : List ℚ) (sample_rate : ℕ) : Option (List ℚ) :=
  if sample_rate = 16000 then
    some audio
  else if sample_rate = 0 then
    none
  else if audio = [] then
    none
  else
    some ((linspace0 ((audio.length : ℚ) - 1)
      ((audio.length * 16000) / sample_rate)).map (interpAt audio))

/-- The whole try block of lines 127-135 for one track: resample, then
extract the embedding; none when any step raises. -/
def trackEmbedding (yamnet_model : List ℚ → Frames) (t : Track) :
    Option (List ℚ) :=
  (resampleAudio t.audio t.rate).bind (extract_embeddings yamnet_model)

/-- The genre validation at line 123:
isinstance(genre_idx, int) and 0 <= genre_idx < len(GENRES). -/
def validGenre : Option ℤ → Bool
  | none => false
  | some g => decide (0 ≤ g) && decide (g < (GENRES.length : ℤ))

/-- The mutable state of the main extraction loop, lines 104-146:
the two parallel output lists, the success and error counters, and the
number of diagnostic lines printed by each of the two failure paths
(line 124 for invalid genres, line 146 for caught exceptions). -/
structure LoopState where
  embeddings_list : List (List ℚ)
  labels_list : List ℤ
  count : ℕ
  errors : ℕ
  invalidMsgs : ℕ
  errorMsgs : ℕ

/-- Loop state before the first iteration (lines 104-114). -/
def initialState : LoopState := ⟨[], [], 0, 0, 0, 0⟩

/-- One iteration of the loop over the dataset, lines 115-146: skip (with
an unconditional diagnostic line) when the genre is invalid; otherwise
run the try block, appending the embedding and label and bumping count on
success, and on an exception bumping errors and printing only while the
error count is at most five. -/
def processExample (yamnet_model : List ℚ → Frames) (s : LoopState)
    (t : Track) : LoopState :=
  if validGenre t.genre then
    match trackEmbedding yamnet_model t with
    | some embedding =>
      { s with embeddings_list := s.embeddings_list ++ [embedding],
               labels_list := s.labels_list ++ [t.genre.getD 0],
               count := s.count + 1 }
    | none =>
      { s with errors := s.errors + 1,
               errorMsgs := if s.errors + 1 ≤ 5 then s.errorMsgs + 1
                            else s.errorMsgs }
  else
    { s with invalidMsgs := s.invalidMsgs + 1 }

/-- The full extraction loop of lines 113-146 over the dataset stream. -/
def runLoop (yamnet_model : List ℚ → Frames) (dataset : List Track) :
    LoopState :=
  dataset.foldl (processExample yamnet_model) initialState

/-- The embeddings the loop assembles, track by track: a valid-genre track
contributes its embedding exactly when its try block succeeds. -/
def assembledEmbeddings (yamnet_model : List ℚ → Frames)
    (dataset : List Track) : List (List ℚ) :=
  dataset.filterMap
    (fun t => if validGenre t.genre then trackEmbedding yamnet_model t
              else none)

/-- The labels the loop assembles, parallel to assembledEmbeddings. -/
def assembledLabels (yamnet_model : List ℚ → Frames)
    (dataset : List Track) : List ℤ :=
  dataset.filterMap
    (fun t => if validGenre t.genre && (trackEmbedding yamnet_model t).isSome
              then some (t.genre.getD 0) else none)

/-- The tracks that pass validation and whose try block succeeds. -/
def okTracks (yamnet_model : List ℚ → Frames) (dataset : List Track) :
    List Track :=
  dataset.filter
    (fun t => validGenre t.genre && (trackEmbedding yamnet_model t).isSome)

/-- The tracks that pass validation but whose try block raises. -/
def failedTracks (yamnet_model : List ℚ → Frames) (dataset : List Track) :
    List Track :=
  dataset.filter
    (fun t => validGenre t.genre && (trackEmbedding yamnet_model t).isNone)

/-- The tracks rejected by the genre validation at line 123. -/
def invalidTracks (dataset : List Track) : List Track :=
  dataset.filter (fun t => !validGenre t.genre)

/-- X.shape[1] at line 153, where X = np.array(embeddings_list): for a
nonempty list of rows the second dimension is the row width; np.array of
an empty list has one-dimensional shape (0,), so shape[1] raises
IndexError — modelled as none. -/
def shape1 : List (List ℚ) → Option ℕ
  | [] => none
  | r :: _ => some r.length

/-- numpy fancy indexing X[indices] at line 157: gather the entries of l
at the given positions.  (Out-of-range positions would raise in numpy;
every use here is under a permutation of range, so the default is never
read.) -/
def gather {α : Type} (l : List α) (d : α) (indices : List ℕ) : List α :=
  indices.map (fun i => l.getD i d)

/-- Lines 156-161 of main: apply the shared permutation to both parallel
lists, take split = int(0.8 * len(X)) — exactly the rational floor of
0.8 times the length, i.e. (8 * n) / 10 in ℕ — and slice both lists into
train and test partitions. -/
def trainTestSplit (X : List (List ℚ)) (y : List ℤ) (indices : List ℕ) :
    (List (List ℚ) × List (List ℚ)) × (List ℤ × List ℤ) :=
  let Xs := gather X [] indices
  let ys := gather y 0 indices
  let split := (8 * Xs.length) / 10
  ((Xs.take split, Xs.drop split), (ys.take split, ys.drop split))

/-- The observable outcome of one script invocation, lines 283-288: the
optional extra banner line printed when the first command-line argument
is "--simple", and the pipeline computation of main(), which does not
receive the arguments at all.  The pipeline is represented by the
modelled stages: the extraction loop and the shuffle/split; everything
downstream (training, export, verification) is a function of these. -/
structure ScriptOutput where
  simpleLine : Bool
  pipeline : LoopState × ((List (List ℚ) × List (List ℚ)) × (List ℤ × List ℤ))

/-- The __main__ block, lines 283-288: sys.argv[1] == "--simple" only
adds a printed line; main() runs unconditionally and identically. -/
def runScript (argv : List String) (yamnet_model : List ℚ → Frames)
    (dataset : List Track) (indices : List ℕ) : ScriptOutput :=
  { simpleLine := argv[1]? == some "--simple",
    pipeline :=
      let s := runLoop yamnet_model dataset
      (s, trainTestSplit s.embeddings_list s.labels_list indices) }

/-- A tiny concrete stand-in for the opaque embedding model, used to
evaluate the loop on concrete tracks where the embedding width is
irrelevant. -/
def yamTiny : List ℚ → Frames := fun _ => ⟨2, [[1, 2]]⟩

/-- A concrete stand-in for the opaque embedding model that satisfies the
documented interface: one frame, embedding width 1024. -/
def yamBig : List ℚ → Frames := fun _ => ⟨1024, [List.replicate 1024 0]⟩

/-! ### Helper lemmas -/

lemma lt_foldl_max_iff (c : ℚ) (xs : List ℚ) : ∀ m : ℚ,
    c < xs.foldl (fun m v => max m |v|) m ↔ c < m ∨ ∃ x ∈ xs, c < |x| := by
  induction xs with
  | nil => intro m; simp
  | cons a t ih =>
    intro m
    rw [List.foldl_cons, ih]
    simp only [lt_max_iff, List.mem_cons]
    constructor
    · rintro ((h | h) | ⟨x, hx, h⟩)
      · exact Or.inl h
      · exact Or.inr ⟨a, Or.inl rfl, h⟩
      · exact Or.inr ⟨x, Or.inr hx, h⟩
    · rintro (h | ⟨x, (rfl | hx), h⟩)
      · exact Or.inl (Or.inl h)
      · exact Or.inl (Or.inr h)
      · exact Or.inr ⟨x, hx, h⟩

lemma one_lt_maxAbs_iff (x : ℚ) (xs : List ℚ) :
    1 < maxAbs (x :: xs) ↔ ∃ y ∈ x :: xs, 1 < |y| := by
  unfold maxAbs
  rw [lt_foldl_max_iff]
  simp only [List.mem_cons]
  constructor
  · rintro (h | ⟨y, hy, h⟩)
    · exact ⟨x, Or.inl rfl, h⟩
    · exact ⟨y, Or.inr hy, h⟩
  · rintro ⟨y, (rfl | hy), h⟩
    · exact Or.inl h
    · exact Or.inr ⟨y, hy, h⟩

lemma linspace0_length (stop : ℚ) (n : ℕ) : (linspace0 stop n).length = n := by
  rw [linspace0, List.length_map, List.length_range]

lemma natDiv_cast_eq_floor (a b : ℕ) (hb : 0 < b) :
    ((a / b : ℕ) : ℤ) = ⌊(a : ℚ) / (b : ℚ)⌋ := by
  have hbq : (0 : ℚ) < (b : ℚ) := by exact_mod_cast hb
  rw [eq_comm, Int.floor_eq_iff]
  constructor
  · rw [le_div_iff₀ hbq]
    exact_mod_cast Nat.div_mul_le_self a b
  · rw [div_lt_iff₀ hbq]
    exact_mod_cast (Nat.div_lt_iff_lt_mul hb).mp (Nat.lt_succ_self (a / b))

lemma floor_round_dist (q : ℚ) : |⌊q⌋ - round q| ≤ 1 := by
  rw [round_eq, abs_le]
  have h1 : ⌊q⌋ ≤ ⌊q + 1 / 2⌋ := Int.floor_le_floor (by linarith)
  have h2 : ⌊q + 1 / 2⌋ ≤ ⌊q⌋ + 1 := by
    have h3 := Int.floor_le_floor (show q + 1 / 2 ≤ q + 1 by linarith)
    rwa [Int.floor_add_one] at h3
  omega

/-! ### Resampler claims -/

/-- C8: for every input waveform whose sample rate already equals 16000 Hz,
the resampler returns the input array unchanged. -/
theorem resample_identity_at_16000 (audio : List ℚ) :
    resampleAudio audio 16000 = some audio := by
  simp [resampleAudio]

/-- C3: for every nonempty waveform of length L at a positive source rate
R distinct from 16000, the resampler succeeds, its output length is the
integer truncation of L * 16000/R, and that length is within 1 sample of
round(L * 16000/R). -/
theorem resample_output_length (audio : List ℚ) (rate : ℕ)
    (hr : 0 < rate) (hne16 : rate ≠ 16000) (hA : audio ≠ []) :
    (resampleAudio audio rate).map List.length =
      some ((audio.length * 16000) / rate) ∧
    |(((audio.length * 16000) / rate : ℕ) : ℤ) -
      round (((audio.length * 16000 : ℕ) : ℚ) / (rate : ℚ))| ≤ 1 := by
  constructor
  · rw [resampleAudio, if_neg hne16, if_neg (by omega), if_neg hA,
      Option.map_some', List.length_map, linspace0_length]
  · have h := natDiv_cast_eq_floor (audio.length * 16000) rate hr
    have h2 := floor_round_dist (((audio.length * 16000 : ℕ) : ℚ) / (rate : ℚ))
    rw [← h] at h2
    exact h2

/-- Witness for C3 at a concrete input: three samples at 22050 Hz. -/
theorem resample_output_length_witness :
    (resampleAudio [0, 0, 0] 22050).map List.length =
      some ((([0, 0, 0] : List ℚ).length * 16000) / 22050) ∧
    |(((([0, 0, 0] : List ℚ).length * 16000) / 22050 : ℕ) : ℤ) -
      round (((([0, 0, 0] : List ℚ).length * 16000 : ℕ) : ℚ) / (22050 : ℚ))| ≤ 1 :=
  resample_output_length [0, 0, 0] 22050 (by norm_num) (by norm_num) (by simp)

/-! ### Embedding-extractor claims -/

/-- C6 counterexample: on the empty waveform the extractor does not pass
the samples through to the embedding function — np.abs([]).max() raises,
so no value is produced at all, although no sample exceeds 1.0. -/
theorem extractor_empty_waveform_raises :
    extract_embeddings yamTiny [] = none ∧
    extract_embeddings yamTiny [] ≠ some (reduceMeanAxis0 (yamTiny [])) := by
  constructor
  · rfl
  · simp [extract_embeddings, scaleInput]

/-- C6 (amended with a nonempty-waveform precondition): for every nonempty
waveform, the extractor feeds the embedding function the samples divided
by 32768 exactly when some sample has absolute value exceeding 1.0, and
the unchanged samples otherwise. -/
theorem extractor_amplitude_scaling (yamnet_model : List ℚ → Frames)
    (audio : List ℚ) (hne : audio ≠ []) :
    extract_embeddings yamnet_model audio =
      some (reduceMeanAxis0 (yamnet_model
        (if ∃ x ∈ audio, 1 < |x| then audio.map (fun v => v / 32768)
         else audio))) := by
  cases audio with
  | nil => exact absurd rfl hne
  | cons a t =>
    by_cases h : ∃ x ∈ a :: t, 1 < |x|
    · have hmax : 1 < maxAbs (a :: t) := (one_lt_maxAbs_iff a t).mpr h
      rw [if_pos h]
      simp [extract_embeddings, scaleInput, hmax]
    · have hmax : ¬ 1 < maxAbs (a :: t) := by
        rw [one_lt_maxAbs_iff]; exact h
      rw [if_neg h]
      simp [extract_embeddings, scaleInput, hmax]

/-- Witness for the amended C6 at a concrete integer-scaled waveform. -/
theorem extractor_amplitude_scaling_witness :
    extract_embeddings yamTiny [2, 0] =
      some (reduceMeanAxis0 (yamTiny
        (if ∃ x ∈ ([2, 0] : List ℚ), 1 < |x|
         then ([2, 0] : List ℚ).map (fun v => v / 32768)
         else [2, 0]))) :=
  extractor_amplitude_scaling yamTiny [2, 0] (by simp)

/-- C7 counterexample: with a concrete embedding function of width 1024,
the extractor applied to the empty waveform returns no vector at all
(np.abs([]).max() raises), refuting the claim for waveforms of length 0. -/
theorem embedding_length_empty_waveform :
    (yamBig []).cols = 1024 ∧
    extract_embeddings yamBig [] = none := by
  exact ⟨rfl, rfl⟩

/-- C7 (amended with a nonempty-waveform precondition): for every
nonempty waveform, if the opaque embedding function always returns a
tensor of per-frame embeddings of width 1024, then the extractor returns
a vector of length exactly 1024, independent of the waveform length —
the mean reduction is across the frame axis only. -/
theorem embedding_vector_length_1024 (yamnet_model : List ℚ → Frames)
    (audio : List ℚ) (hne : audio ≠ [])
    (hcols : ∀ a, (yamnet_model a).cols = 1024) :
    (extract_embeddings yamnet_model audio).map List.length = some 1024 := by
  cases audio with
  | nil => exact absurd rfl hne
  | cons a t =>
    by_cases h : 1 < maxAbs (a :: t) <;>
      simp [extract_embeddings, scaleInput, h, reduceMeanAxis0, hcols]

/-- Witness for the amended C7 at a concrete one-sample waveform. -/
theorem embedding_vector_length_1024_witness :
    (extract_embeddings yamBig [1]).map List.length = some 1024 :=
  embedding_vector_length_1024 yamBig [1] (by simp) (fun a => rfl)

/-! ### Characterization of the extraction loop -/

lemma track_skipped_none (yamnet_model : List ℚ → Frames) (t : Track)
    (h : validGenre t.genre = false ∨ trackEmbedding yamnet_model t = none) :
    (if validGenre t.genre then trackEmbedding yamnet_model t else none)
      = none := by
  rcases h with h | h <;> simp [h]

lemma foldl_processExample (yamnet_model : List ℚ → Frames)
    (dataset : List Track) : ∀ st : LoopState,
    dataset.foldl (processExample yamnet_model) st =
      { embeddings_list :=
          st.embeddings_list ++ assembledEmbeddings yamnet_model dataset,
        labels_list := st.labels_list ++ assembledLabels yamnet_model dataset,
        count := st.count + (okTracks yamnet_model dataset).length,
        errors := st.errors + (failedTracks yamnet_model dataset).length,
        invalidMsgs := st.invalidMsgs + (invalidTracks dataset).length,
        errorMsgs := st.errorMsgs +
          (min (st.errors + (failedTracks yamnet_model dataset).length) 5 -
            min st.errors 5) } := by
  induction dataset with
  | nil =>
    intro st
    simp [assembledEmbeddings, assembledLabels, okTracks, failedTracks,
      invalidTracks]
  | cons t rest ih =>
    intro st
    rw [List.foldl_cons]
    by_cases hv : validGenre t.genre
    · cases he : trackEmbedding yamnet_model t with
      | some e =>
        rw [show processExample yamnet_model st t =
            { st with embeddings_list := st.embeddings_list ++ [e],
                      labels_list := st.labels_list ++ [t.genre.getD 0],
                      count := st.count + 1 } by
          simp [processExample, hv, he]]
        rw [ih]
        simp [assembledEmbeddings, assembledLabels, okTracks, failedTracks,
          invalidTracks, List.filterMap_cons, List.filter_cons, hv, he]
        omega
      | none =>
        rw [show processExample yamnet_model st t =
            { st with errors := st.errors + 1,
                      errorMsgs := if st.errors + 1 ≤ 5 then st.errorMsgs + 1
                                   else st.errorMsgs } by
          simp [processExample, hv, he]]
        rw [ih]
        simp [assembledEmbeddings, assembledLabels, okTracks, failedTracks,
          invalidTracks, List.filterMap_cons, List.filter_cons, hv, he]
        split_ifs <;> omega
    · rw [show processExample yamnet_model st t =
          { st with invalidMsgs := st.invalidMsgs + 1 } by
        simp [processExample, hv]]
      rw [ih]
      simp [assembledEmbeddings, assembledLabels, okTracks, failedTracks,
        invalidTracks, List.filterMap_cons, List.filter_cons, hv]
      omega

lemma runLoop_char (yamnet_model : List ℚ → Frames) (dataset : List Track) :
    runLoop yamnet_model dataset =
      { embeddings_list := assembledEmbeddings yamnet_model dataset,
        labels_list := assembledLabels yamnet_model dataset,
        count := (okTracks yamnet_model dataset).length,
        errors := (failedTracks yamnet_model dataset).length,
        invalidMsgs := (invalidTracks dataset).length,
        errorMsgs := min ((failedTracks yamnet_model dataset).length) 5 } := by
  rw [runLoop, foldl_processExample]
  simp [initialState]

lemma assembledEmbeddings_length_eq_ok (yamnet_model : List ℚ → Frames)
    (dataset : List Track) :
    (assembledEmbeddings yamnet_model dataset).length =
      (okTracks yamnet_model dataset).length := by
  induction dataset with
  | nil => simp [assembledEmbeddings, okTracks]
  | cons t rest ih =>
    by_cases hv : validGenre t.genre
    · cases he : trackEmbedding yamnet_model t with
      | some e =>
        simp [assembledEmbeddings, okTracks, List.filterMap_cons,
          List.filter_cons, hv, he] at ih ⊢
        omega
      | none =>
        simp [assembledEmbeddings, okTracks, List.filterMap_cons,
          List.filter_cons, hv, he] at ih ⊢
        omega
    · simp [assembledEmbeddings, okTracks, List.filterMap_cons,
        List.filter_cons, hv] at ih ⊢
      omega

lemma assembledLabels_length_eq_ok (yamnet_model : List ℚ → Frames)
    (dataset : List Track) :
    (assembledLabels yamnet_model dataset).length =
      (okTracks yamnet_model dataset).length := by
  induction dataset with
  | nil => simp [assembledLabels, okTracks]
  | cons t rest ih =>
    by_cases hv : validGenre t.genre
    · cases he : trackEmbedding yamnet_model t with
      | some e =>
        simp [assembledLabels, okTracks, List.filterMap_cons,
          List.filter_cons, hv, he] at ih ⊢
        omega
      | none =>
        simp [assembledLabels, okTracks, List.filterMap_cons,
          List.filter_cons, hv, he] at ih ⊢
        omega
    · simp [assembledLabels, okTracks, List.filterMap_cons,
        List.filter_cons, hv] at ih ⊢
      omega

lemma okTracks_eq_filter_valid (yamnet_model : List ℚ → Frames)
    (dataset : List Track)
    (h : ∀ t ∈ dataset, validGenre t.genre = true →
      (trackEmbedding yamnet_model t).isSome = true) :
    okTracks yamnet_model dataset =
      dataset.filter (fun t => validGenre t.genre) := by
  apply List.filter_congr
  intro t ht
  cases hv : validGenre t.genre
  · simp [hv]
  · simp [hv, h t ht hv]

/-! ### Assembler claims -/

/-- C1 counterexample: the code validates labels against [0,10), not
[0,9).  A track labeled 9 ("rock") has zero tracks with a label in [0,9)
around it, yet the assembled output has length 1 and the label 9 —
outside [0,9) — appears in it. -/
theorem genre_nine_assembled :
    (runLoop yamTiny [⟨[0], 16000, some 9⟩]).labels_list = [(9 : ℤ)] ∧
    (runLoop yamTiny [⟨[0], 16000, some 9⟩]).embeddings_list.length = 1 ∧
    (([⟨[0], 16000, some 9⟩] : List Track).filter
      (fun t => match t.genre with
        | some g => decide (0 ≤ g) && decide (g < 9)
        | none => false)).length = 0 := by
  refine ⟨by decide, by decide, by decide⟩

/-- C1 (amended from [0,9) to [0,10)): for a stream whose valid-labeled
tracks (label an integer in [0,10)) all extract successfully, both output
sequences have length exactly the number of valid-labeled tracks, and
every assembled label lies in [0,10). -/
theorem assembler_excludes_invalid_labels (yamnet_model : List ℚ → Frames)
    (dataset : List Track)
    (h : ∀ t ∈ dataset, validGenre t.genre = true →
      (trackEmbedding yamnet_model t).isSome = true) :
    (runLoop yamnet_model dataset).embeddings_list.length =
      (dataset.filter (fun t => validGenre t.genre)).length ∧
    (runLoop yamnet_model dataset).labels_list.length =
      (dataset.filter (fun t => validGenre t.genre)).length ∧
    (runLoop yamnet_model dataset).labels_list.all
      (fun l => decide (0 ≤ l) && decide (l < 10)) = true := by
  rw [runLoop_char]
  refine ⟨?_, ?_, ?_⟩
  · show (assembledEmbeddings yamnet_model dataset).length = _
    rw [assembledEmbeddings_length_eq_ok,
      okTracks_eq_filter_valid yamnet_model dataset h]
  · show (assembledLabels yamnet_model dataset).length = _
    rw [assembledLabels_length_eq_ok,
      okTracks_eq_filter_valid yamnet_model dataset h]
  · show (assembledLabels yamnet_model dataset).all _ = true
    rw [List.all_eq_true]
    intro l hl
    rw [assembledLabels, List.mem_filterMap] at hl
    obtain ⟨t, ht, hft⟩ := hl
    by_cases hc : validGenre t.genre && (trackEmbedding yamnet_model t).isSome
    · rw [if_pos hc, Option.some_inj] at hft
      have hv : validGenre t.genre = true := by
        cases hvg : validGenre t.genre
        · rw [hvg] at hc; simp at hc
        · rfl
      cases hg : t.genre with
      | none => rw [hg] at hv; simp [validGenre] at hv
      | some g =>
        rw [hg] at hv
        have h10 : (GENRES.length : ℤ) = 10 := rfl
        rw [validGenre, h10, Bool.and_eq_true, decide_eq_true_iff,
          decide_eq_true_iff] at hv
        rw [hg] at hft
        simp only [Option.getD_some] at hft
        rw [← hft]
        simp [hv.1, hv.2]
    · rw [if_neg hc] at hft
      exact absurd hft (by simp)

/-- Witness for the amended C1: one valid track (label 9) and one
invalid track (label 12); one pair is assembled and its label is in
[0,10). -/
theorem assembler_excludes_invalid_labels_witness :
    (runLoop yamTiny [⟨[0], 16000, some 9⟩, ⟨[0], 16000, some 12⟩]).embeddings_list.length =
      (([⟨[0], 16000, some 9⟩, ⟨[0], 16000, some 12⟩] : List Track).filter
        (fun t => validGenre t.genre)).length ∧
    (runLoop yamTiny [⟨[0], 16000, some 9⟩, ⟨[0], 16000, some 12⟩]).labels_list.length =
      (([⟨[0], 16000, some 9⟩, ⟨[0], 16000, some 12⟩] : List Track).filter
        (fun t => validGenre t.genre)).length ∧
    (runLoop yamTiny [⟨[0], 16000, some 9⟩, ⟨[0], 16000, some 12⟩]).labels_list.all
      (fun l => decide (0 ≤ l) && decide (l < 10)) = true :=
  assembler_excludes_invalid_labels yamTiny
    [⟨[0], 16000, some 9⟩, ⟨[0], 16000, some 12⟩] (by decide)

/-- C4 counterexample: a stream of six bad-label tracks.  The bad-label
path prints a diagnostic on every occurrence — six lines, more than the
claimed at-most-five — and increments no error counter at all. -/
theorem invalid_label_logging_unbounded :
    (runLoop yamTiny (List.replicate 6 ⟨[0], 16000, some 99⟩)).invalidMsgs = 6 ∧
    ¬ (runLoop yamTiny (List.replicate 6 ⟨[0], 16000, some 99⟩)).invalidMsgs ≤ 5 ∧
    (runLoop yamTiny (List.replicate 6 ⟨[0], 16000, some 99⟩)).errors = 0 := by
  refine ⟨by decide, by decide, by decide⟩

/-- C4 (amended): a single failing track — invalid label, or valid label
with a raising try block — is dropped without affecting the assembled
outputs of the remaining stream; a bad label adds one (uncapped) printed
line and touches no error counter, a caught exception increments the
error counter; diagnostic lines for caught exceptions are capped at
five. -/
theorem per_track_failure_isolated (yamnet_model : List ℚ → Frames)
    (pre post : List Track) (t : Track)
    (h : validGenre t.genre = false ∨ trackEmbedding yamnet_model t = none) :
    (runLoop yamnet_model (pre ++ t :: post)).embeddings_list =
      (runLoop yamnet_model (pre ++ post)).embeddings_list ∧
    (runLoop yamnet_model (pre ++ t :: post)).labels_list =
      (runLoop yamnet_model (pre ++ post)).labels_list ∧
    (runLoop yamnet_model (pre ++ t :: post)).count =
      (runLoop yamnet_model (pre ++ post)).count ∧
    (runLoop yamnet_model (pre ++ t :: post)).errors =
      (runLoop yamnet_model (pre ++ post)).errors +
        (if validGenre t.genre then 1 else 0) ∧
    (runLoop yamnet_model (pre ++ t :: post)).invalidMsgs =
      (runLoop yamnet_model (pre ++ post)).invalidMsgs +
        (if validGenre t.genre then 0 else 1) ∧
    (runLoop yamnet_model (pre ++ t :: post)).errorMsgs =
      min (runLoop yamnet_model (pre ++ t :: post)).errors 5 := by
  rw [runLoop_char, runLoop_char]
  have hfm : (if validGenre t.genre then trackEmbedding yamnet_model t
      else none) = none := track_skipped_none yamnet_model t h
  refine ⟨?_, ?_, ?_, ?_, ?_, rfl⟩
  · show assembledEmbeddings yamnet_model (pre ++ t :: post) =
      assembledEmbeddings yamnet_model (pre ++ post)
    rw [assembledEmbeddings, assembledEmbeddings, List.filterMap_append,
      List.filterMap_append, List.filterMap_cons, hfm]
  · show assembledLabels yamnet_model (pre ++ t :: post) =
      assembledLabels yamnet_model (pre ++ post)
    have hc : (validGenre t.genre && (trackEmbedding yamnet_model t).isSome)
        = false := by
      rcases h with h | h <;> simp [h]
    rw [assembledLabels, assembledLabels, List.filterMap_append,
      List.filterMap_append, List.filterMap_cons, hc]
    simp
  · show (okTracks yamnet_model (pre ++ t :: post)).length =
      (okTracks yamnet_model (pre ++ post)).length
    have hc : (validGenre t.genre && (trackEmbedding yamnet_model t).isSome)
        = false := by
      rcases h with h | h <;> simp [h]
    rw [okTracks, okTracks, List.filter_append, List.filter_append,
      List.filter_cons, hc]
    simp
  · show (failedTracks yamnet_model (pre ++ t :: post)).length =
      (failedTracks yamnet_model (pre ++ post)).length + _
    rw [failedTracks, failedTracks, List.filter_append, List.filter_append,
      List.filter_cons]
    rcases h with hx | hx
    · rw [hx]
      simp
    · cases hv : validGenre t.genre
      · simp
      · simp [hx, List.length_append]
        omega
  · show (invalidTracks (pre ++ t :: post)).length =
      (invalidTracks (pre ++ post)).length + _
    rw [invalidTracks, invalidTracks, List.filter_append, List.filter_append,
      List.filter_cons]
    cases hv : validGenre t.genre
    · simp [hv, List.length_append]
      omega
    · simp [hv]

/-- Witness for the amended C4: a bad-label track between two good
tracks is dropped, leaves the assembled outputs unchanged, adds one
uncapped diagnostic line, and increments no error counter. -/
theorem per_track_failure_isolated_witness :
    (runLoop yamTiny [⟨[0], 16000, some 1⟩, ⟨[0], 16000, some 99⟩, ⟨[0], 16000, some 2⟩]).embeddings_list =
      (runLoop yamTiny [⟨[0], 16000, some 1⟩, ⟨[0], 16000, some 2⟩]).embeddings_list ∧
    (runLoop yamTiny [⟨[0], 16000, some 1⟩, ⟨[0], 16000, some 99⟩, ⟨[0], 16000, some 2⟩]).labels_list =
      (runLoop yamTiny [⟨[0], 16000, some 1⟩, ⟨[0], 16000, some 2⟩]).labels_list ∧
    (runLoop yamTiny [⟨[0], 16000, some 1⟩, ⟨[0], 16000, some 99⟩, ⟨[0], 16000, some 2⟩]).count =
      (runLoop yamTiny [⟨[0], 16000, some 1⟩, ⟨[0], 16000, some 2⟩]).count ∧
    (runLoop yamTiny [⟨[0], 16000, some 1⟩, ⟨[0], 16000, some 99⟩, ⟨[0], 16000, some 2⟩]).errors =
      (runLoop yamTiny [⟨[0], 16000, some 1⟩, ⟨[0], 16000, some 2⟩]).errors +
        (if validGenre (some 99) then 1 else 0) ∧
    (runLoop yamTiny [⟨[0], 16000, some 1⟩, ⟨[0], 16000, some 99⟩, ⟨[0], 16000, some 2⟩]).invalidMsgs =
      (runLoop yamTiny [⟨[0], 16000, some 1⟩, ⟨[0], 16000, some 2⟩]).invalidMsgs +
        (if validGenre (some 99) then 0 else 1) ∧
    (runLoop yamTiny [⟨[0], 16000, some 1⟩, ⟨[0], 16000, some 99⟩, ⟨[0], 16000, some 2⟩]).errorMsgs =
      min (runLoop yamTiny [⟨[0], 16000, some 1⟩, ⟨[0], 16000, some 99⟩, ⟨[0], 16000, some 2⟩]).errors 5 :=
  per_track_failure_isolated yamTiny [⟨[0], 16000, some 1⟩]
    [⟨[0], 16000, some 2⟩] ⟨[0], 16000, some 99⟩ (Or.inl (by decide))

/-- C10: if no track is processed successfully — every track has an
invalid label or a raising try block — the assembled embedding list is
empty and the feature-count report X.shape[1] at line 153 raises
IndexError (np.array of an empty list has one-dimensional shape), so the
pipeline never reaches training or export. -/
theorem zero_tracks_feature_report_fails (yamnet_model : List ℚ → Frames)
    (dataset : List Track)
    (h : ∀ t ∈ dataset, validGenre t.genre = false ∨
      trackEmbedding yamnet_model t = none) :
    (runLoop yamnet_model dataset).embeddings_list = [] ∧
    shape1 (runLoop yamnet_model dataset).embeddings_list = none := by
  have hA : assembledEmbeddings yamnet_model dataset = [] := by
    rw [assembledEmbeddings, List.filterMap_eq_nil_iff]
    intro t ht
    exact track_skipped_none yamnet_model t (h t ht)
  rw [runLoop_char]
  constructor
  · exact hA
  · show shape1 (assembledEmbeddings yamnet_model dataset) = none
    rw [hA]
    rfl

/-- Witness for C10: a stream of one bad-label track and one valid-label
track whose extraction raises (empty waveform); nothing is assembled and
the feature report fails. -/
theorem zero_tracks_feature_report_fails_witness :
    (runLoop yamTiny [⟨[0], 16000, some 99⟩, ⟨[], 16000, some 1⟩]).embeddings_list = [] ∧
    shape1 (runLoop yamTiny [⟨[0], 16000, some 99⟩, ⟨[], 16000, some 1⟩]).embeddings_list = none :=
  zero_tracks_feature_report_fails yamTiny
    [⟨[0], 16000, some 99⟩, ⟨[], 16000, some 1⟩] (by decide)

/-! ### Shuffle and split claims -/

lemma map_getD_range {α : Type} (l : List α) (d : α) :
    (List.range l.length).map (fun i => l.getD i d) = l := by
  induction l with
  | nil => simp
  | cons a t ih =>
    rw [List.length_cons, List.range_succ_eq_map, List.map_cons,
      List.map_map]
    rw [List.getD_cons_zero]
    have hcomp : ((fun i => (a :: t).getD i d) ∘ Nat.succ) =
        (fun i => t.getD i d) := by
      funext i
      simp [Function.comp, List.getD_cons_succ]
    rw [hcomp, ih]

lemma gather_perm {α : Type} (l : List α) (d : α) (indices : List ℕ)
    (h : indices.Perm (List.range l.length)) : (gather l d indices).Perm l := by
  have hm := h.map (fun i => l.getD i d)
  rwa [map_getD_range] at hm

lemma getD_zip {α β : Type} (dx : α) (dy : β) :
    ∀ (x : List α) (y : List β) (i : ℕ), i < x.length → i < y.length →
      (x.zip y).getD i (dx, dy) = (x.getD i dx, y.getD i dy) := by
  intro x
  induction x with
  | nil =>
    intro y i hx hy
    simp at hx
  | cons a t ih =>
    intro y i hx hy
    cases y with
    | nil => simp at hy
    | cons b u =>
      cases i with
      | zero => rw [List.zip_cons_cons, List.getD_cons_zero,
          List.getD_cons_zero, List.getD_cons_zero]
      | succ j =>
        rw [List.zip_cons_cons, List.getD_cons_succ, List.getD_cons_succ,
          List.getD_cons_succ]
        exact ih u j (by simpa using hx) (by simpa using hy)

/-- C5: lines 156-157 apply one shared permutation of indices to both
parallel lists: shuffling the two lists and pairing them up equals
pairing them up first and shuffling the pairs, and the multiset of
(embedding, label) pairs is preserved by the shuffle. -/
theorem shuffle_single_permutation (X : List (List ℚ)) (y : List ℤ)
    (indices : List ℕ) (hperm : indices.Perm (List.range X.length))
    (hlen : y.length = X.length) :
    (gather X [] indices).zip (gather y 0 indices) =
      gather (X.zip y) ([], 0) indices ∧
    ((gather X [] indices).zip (gather y 0 indices)).Perm (X.zip y) := by
  have hzip_len : (X.zip y).length = X.length := by
    rw [List.length_zip, hlen, min_self]
  have h1 : (gather X [] indices).zip (gather y 0 indices) =
      gather (X.zip y) ([], 0) indices := by
    rw [gather, gather, gather, List.zip_map']
    apply List.map_congr_left
    intro i hi
    have hiX : i < X.length := by
      have hr := hperm.subset hi
      simpa [List.mem_range] using hr
    have hiy : i < y.length := by omega
    exact (getD_zip [] 0 X y i hiX hiy).symm
  refine ⟨h1, ?_⟩
  rw [h1]
  exact gather_perm (X.zip y) ([], 0) indices (by rwa [hzip_len])

/-- Witness for C5 with two pairs and the transposition permutation. -/
theorem shuffle_single_permutation_witness :
    (gather [[1], [2]] ([] : List ℚ) [1, 0]).zip (gather [3, 4] (0 : ℤ) [1, 0]) =
      gather (([[1], [2]] : List (List ℚ)).zip ([3, 4] : List ℤ)) ([], 0) [1, 0] ∧
    ((gather [[1], [2]] ([] : List ℚ) [1, 0]).zip (gather [3, 4] (0 : ℤ) [1, 0])).Perm
      (([[1], [2]] : List (List ℚ)).zip ([3, 4] : List ℤ)) :=
  shuffle_single_permutation [[1], [2]] [3, 4] [1, 0] (by decide) (by decide)

/-- C2: under a permutation of indices, the split at
split = int(0.8 * len(X)) produces train partitions of size exactly
floor(0.8 * N) and test partitions of size exactly N - floor(0.8 * N),
and train ++ test is a permutation of the assembled list — every
assembled example lands in exactly one partition, none duplicated, none
lost. -/
theorem train_test_split_partition (X : List (List ℚ)) (y : List ℤ)
    (indices : List ℕ) (hperm : indices.Perm (List.range X.length))
    (hlen : y.length = X.length) :
    (trainTestSplit X y indices).1.1.length = (8 * X.length) / 10 ∧
    (trainTestSplit X y indices).1.2.length =
      X.length - (8 * X.length) / 10 ∧
    (trainTestSplit X y indices).2.1.length = (8 * X.length) / 10 ∧
    (trainTestSplit X y indices).2.2.length =
      X.length - (8 * X.length) / 10 ∧
    (8 * X.length) / 10 = ⌊(0.8 : ℚ) * (X.length : ℚ)⌋₊ ∧
    ((trainTestSplit X y indices).1.1 ++
      (trainTestSplit X y indices).1.2).Perm X ∧
    ((trainTestSplit X y indices).2.1 ++
      (trainTestSplit X y indices).2.2).Perm y := by
  have hidx : indices.length = X.length := by
    rw [hperm.length_eq, List.length_range]
  have hXs : (gather X [] indices).length = X.length := by
    rw [gather, List.length_map, hidx]
  have hys : (gather y 0 indices).length = X.length := by
    rw [gather, List.length_map, hidx]
  have hsplit_le : (8 * X.length) / 10 ≤ X.length := by
    have h8 := Nat.div_le_div_right (c := 10)
      (show 8 * X.length ≤ 10 * X.length by omega)
    omega
  have hfloor : (8 * X.length) / 10 = ⌊(0.8 : ℚ) * (X.length : ℚ)⌋₊ := by
    have hq : (0.8 : ℚ) * (X.length : ℚ) =
        ((8 * X.length : ℕ) : ℚ) / ((10 : ℕ) : ℚ) := by
      push_cast
      ring_nf
    rw [hq, Nat.floor_div_nat, Nat.floor_natCast]
  rw [trainTestSplit]
  simp only [hXs]
  refine ⟨?_, ?_, ?_, ?_, hfloor, ?_, ?_⟩
  · rw [List.length_take, hXs]
    omega
  · rw [List.length_drop, hXs]
  · rw [List.length_take, hys]
    omega
  · rw [List.length_drop, hys]
  · rw [List.take_append_drop]
    exact gather_perm X [] indices hperm
  · rw [List.take_append_drop]
    exact gather_perm y 0 indices (by rwa [hlen])

/-- Witness for C2 with three examples and a concrete permutation:
split sizes 2 and 1, and both partitions together permute the inputs. -/
theorem train_test_split_partition_witness :
    (trainTestSplit [[1], [2], [3]] [5, 6, 7] [2, 0, 1]).1.1.length =
      (8 * ([[1], [2], [3]] : List (List ℚ)).length) / 10 ∧
    (trainTestSplit [[1], [2], [3]] [5, 6, 7] [2, 0, 1]).1.2.length =
      ([[1], [2], [3]] : List (List ℚ)).length -
        (8 * ([[1], [2], [3]] : List (List ℚ)).length) / 10 ∧
    (trainTestSplit [[1], [2], [3]] [5, 6, 7] [2, 0, 1]).2.1.length =
      (8 * ([[1], [2], [3]] : List (List ℚ)).length) / 10 ∧
    (trainTestSplit [[1], [2], [3]] [5, 6, 7] [2, 0, 1]).2.2.length =
      ([[1], [2], [3]] : List (List ℚ)).length -
        (8 * ([[1], [2], [3]] : List (List ℚ)).length) / 10 ∧
    (8 * ([[1], [2], [3]] : List (List ℚ)).length) / 10 =
      ⌊(0.8 : ℚ) * (([[1], [2], [3]] : List (List ℚ)).length : ℚ)⌋₊ ∧
    ((trainTestSplit [[1], [2], [3]] [5, 6, 7] [2, 0, 1]).1.1 ++
      (trainTestSplit [[1], [2], [3]] [5, 6, 7] [2, 0, 1]).1.2).Perm
      ([[1], [2], [3]] : List (List ℚ)) ∧
    ((trainTestSplit [[1], [2], [3]] [5, 6, 7] [2, 0, 1]).2.1 ++
      (trainTestSplit [[1], [2], [3]] [5, 6, 7] [2, 0, 1]).2.2).Perm
      ([5, 6, 7] : List ℤ) :=
  train_test_split_partition [[1], [2], [3]] [5, 6, 7] [2, 0, 1]
    (by decide) (by decide)

/-! ### Command-line flag claim -/

/-- C9: the optional "--simple" positional flag selects no alternate code
path: the pipeline component of the script's behavior is identical for
any two argument vectors, and the flag's sole observable effect is the
one extra banner line, printed exactly when the first argument is
"--simple". -/
theorem simple_flag_no_effect (argv argv2 : List String)
    (yamnet_model : List ℚ → Frames) (dataset : List Track)
    (indices : List ℕ) :
    (runScript argv yamnet_model dataset indices).pipeline =
      (runScript argv2 yamnet_model dataset indices).pipeline ∧
    (runScript argv yamnet_model dataset indices).simpleLine =
      (argv[1]? == some "--simple") :=
  ⟨rfl, rfl⟩
